import Mathlib

/-!
Shallow embedding of the openworklabs/filecoin-verifier allocation
coordinator: the DynamoDB lock helpers and the eligibility check
(src/aws.go), the retry / gas-estimation / settlement-wait helpers
(src/lotus.go), and the two coordinator HTTP handlers
`serveVerifyAccount` and `serveFaucet` (src/unnamed/part_001).

External collaborators (DynamoDB, the Lotus node, the JWT layer) are
modelled as oracles: the outcome of each external call is an explicit
input of the embedded function, so the embeddings are pure and
executable.  Timestamps and durations are integer nanoseconds, matching
Go's `time.Time` / `time.Duration` (an `int64` count of nanoseconds).
Big integers (`types.BigInt` / `specs-actors` `big.Int`) are `Int`.
-/

namespace FilecoinVerifier

/-- Errors are opaque; only their presence/identity matters. -/
abbrev Err := String

/-- Content-addressed transaction references are opaque strings. -/
abbrev Cid := String

/-- Filecoin addresses are opaque strings; `""` is the empty
(zero-value) `address.Address`. -/
abbrev Addr := String

def nsPerHour : Int := 3600000000000

def nsPerDay : Int := 24 * nsPerHour

/-- The process configuration (the global `env` of the Go program),
restricted to the fields the embedded code reads. -/
structure Env where
  minAccountAgeDays : Int
  verifierMinAccountAgeDays : Int
  faucetMinAccountAge : Int
  maxAllowanceBytes : Int
  faucetRateLimit : Int
  faucetBaseRate : Int
  faucetMinGrant : Int
  faucetAddr : Addr
  deriving DecidableEq

/-- One linked account (src/aws.go `AccountData`); `createdAt` is a
nanosecond epoch timestamp. -/
structure AccountData where
  uniqueID : String
  name : String
  createdAt : Int
  deriving DecidableEq

/-- The persisted subject record.  Union of the `User` fields declared
in src/aws.go and the further fields the handlers in
src/unnamed/part_001 read and write (`VerifiedFilecoinAddress`,
`ReceivedNonMinerFaucetGrant`, `MostRecentMinerFaucetGrant`,
`MostRecentMinerFaucetGrantCid`).  The method
`HasRequestedFromFaucetAsMiner`, whose body is not under src/, is
modelled as an uninterpreted per-user boolean attribute; the claims
about the handlers depend only on its value.  The `Accounts` map is a
list of its values (the Go code only ranges over the values). -/
structure User where
  id : String
  accounts : List AccountData
  mostRecentAllocation : Int
  mostRecentFaucetGrant : Int
  verifiedFilecoinAddress : String
  receivedNonMinerFaucetGrant : Bool
  mostRecentMinerFaucetGrant : Int
  mostRecentMinerFaucetGrantCid : Cid
  hasRequestedFromFaucetAsMiner : Bool
  deriving DecidableEq

/-- Embeds `User.HasAccountOlderThan` (src/aws.go:30-37), evaluated at
wall-clock time `now`.  The Go body compares
`time.Now().Sub(account.CreatedAt).Hours()` with
`(time.Duration(env.MinAccountAgeDays) * 24 * time.Hour).Hours()`;
`Hours()` divides the nanosecond count by a positive constant, so the
comparison is equivalent to comparing the nanosecond counts.  Note the
body measures against `env.MinAccountAgeDays`, not against the
`threshold` parameter, which the source never reads. -/
def hasAccountOlderThan (env : Env) (now : Int) (user : User) (threshold : Int) : Bool :=
  user.accounts.any fun account =>
    env.minAccountAgeDays * 24 * nsPerHour ≤ now - account.createdAt

/-- A DynamoDB item, restricted to its boolean lock attributes: an
association list from attribute name to value.  An absent key models an
absent attribute. -/
abbrev AttrMap := List (String × Bool)

def getAttr (m : AttrMap) (k : String) : Option Bool :=
  (m.find? fun kv => kv.1 == k).map fun kv => kv.2

def setAttr (m : AttrMap) (k : String) (v : Bool) : AttrMap :=
  (k, v) :: m.filter fun kv => kv.1 != k

/-- Embeds `lockUser` (src/aws.go:77-83): the conditional update
`SET Locked_<lock> = true` guarded by the condition expression
`'Locked_<lock>' = false OR attribute_not_exists(Locked)`.  The
equality test names the attribute `Locked_<lock>` (and is false when
that attribute is absent, per DynamoDB semantics), while the existence
test names the attribute literally called `Locked`.  Returns the
updated item on success and `none` when the condition fails (the
`ConditionalCheckFailed` error). -/
def lockUser (item : AttrMap) (lock : String) : Option AttrMap :=
  let flag := "Locked_" ++ lock
  if getAttr item flag == some false || getAttr item "Locked" == none then
    some (setAttr item flag true)
  else
    none

/-- Embeds `unlockUser` (src/aws.go:85-91): sets `Locked_<lock> = false`
under the condition `'Locked_<lock>' = true`. -/
def unlockUser (item : AttrMap) (lock : String) : Option AttrMap :=
  let flag := "Locked_" ++ lock
  if getAttr item flag == some true then
    some (setAttr item flag false)
  else
    none

/-- Embeds the repeat-miner grant computation of `serveFaucet`
(src/unnamed/part_001:424-433): `powerDiff = prevPower - currentPower`;
when positive, `owed = BigDiv(BigDiv(powerDiff, 1073741824), 2)`
(`big.Int.Div` on a positive divisor is floor division, hence `fdiv`),
otherwise `owed` keeps its zero value; finally the lower bound
`env.FaucetMinGrant` is applied. -/
def minerOwed (prevPower currentPower minGrant : Int) : Int :=
  let powerDiff := prevPower - currentPower
  let owed : Int := if 0 < powerDiff then (powerDiff.fdiv 1073741824).fdiv 2 else 0
  if owed < minGrant then minGrant else owed

/-- Embeds `retry` (src/lotus.go:366-383), generalised over the value
the wrapped closure captures on a successful call (in
`lotusWaitMessageResult` the closure writes the `MsgLookup` it received
into the captured `mwait`; a failed call writes Go's `nil` back, which
clears it).  Arguments mirror the loop state: `fuel` bounds the number
of loop iterations (the result is `none` when it runs out, which cannot
happen once `fuel` exceeds the number of iterations the deadline
admits), `i` is the index of the next attempt, `elapsed` the
nanoseconds slept so far, `wait` the current backoff, `lastErr` the
value of the named return `err`, and `lastVal` the captured value.  The
context check at the top of the loop fires once `elapsed` reaches
`deadline`; `f i` is the outcome of the `i`-th attempt.  On each
failure the code sleeps `wait` (recorded in the returned list) and then
sets `wait += wait / 2` — integer division of `time.Duration`
nanoseconds. -/
def retryGen {ε α : Type} (deadline : Nat) (f : Nat → Except ε α) :
    Nat → Nat → Nat → Nat → Option ε → Option α →
    Option (Option ε × Option α × List Nat)
  | 0, _, _, _, _, _ => none
  | fuel + 1, i, elapsed, wait, lastErr, lastVal =>
    if deadline ≤ elapsed then
      some (lastErr, lastVal, [])
    else
      match f i with
      | .ok a => some (none, some a, [])
      | .error e =>
        (retryGen deadline f fuel (i + 1) (elapsed + wait) (wait + wait / 2)
            (some e) none).map
          fun out => (out.1, out.2.1, wait :: out.2.2)

/-- The plain `retry(ctx, fn)` view: `fn n = none` means the `n`-th
call of the wrapped function returned a nil error.  Returns the
returned error value together with the list of sleeps performed. -/
def retry (deadline fuel : Nat) (fn : Nat → Option Nat) :
    Option (Option Nat × List Nat) :=
  (retryGen deadline
      (fun n => match fn n with
        | none => Except.ok ()
        | some e => Except.error e)
      fuel 0 0 5000000000 none none).map
    fun out => (out.1, out.2.2)

/-- The backoff schedule of `retry`: the duration of the `n`-th sleep
(0-indexed), starting from `5 * time.Second` nanoseconds with
`wait += wait / 2` after each failure. -/
def waitSeq : Nat → Nat
  | 0 => 5000000000
  | n + 1 => waitSeq n + waitSeq n / 2

/-- Total nanoseconds slept before the `n`-th attempt of `retry`. -/
def elapsedAt : Nat → Nat
  | 0 => 0
  | n + 1 => elapsedAt n + waitSeq n

/-- Embeds `lotusEstimateGasLimit` (src/lotus.go:282-289).  The node
API is an attempt-indexed oracle; the body calls
`api.GasEstimateGasLimit` exactly once and propagates its outcome.  The
second component counts the estimation calls made. -/
def lotusEstimateGasLimit (gasEstimateGasLimit : Nat → Except Err Int) :
    Except Err Int × Nat :=
  match gasEstimateGasLimit 0 with
  | .error e => (.error e, 1)
  | .ok gasLimit => (.ok gasLimit, 1)

/-- Embeds `lotusEstimateGasPrice` (src/lotus.go:291-298): a single
call of `api.GasEstimateGasPrice`, outcome propagated, no retry. -/
def lotusEstimateGasPrice (gasEstimateGasPrice : Nat → Except Err Int) :
    Except Err Int × Nat :=
  match gasEstimateGasPrice 0 with
  | .error e => (.error e, 1)
  | .ok gasPrice => (.ok gasPrice, 1)

/-- The part of an `api.MsgLookup` the code reads:
`mwait.Receipt.ExitCode`. -/
structure MsgLookup where
  exitCode : Int
  deriving DecidableEq

/-- Outcome of `lotusWaitMessageResult`: either the returned pair —
`.result (.ok b)` for `return b, nil`, `.result (.error e)` for
`return false, err` — or `.crash`, the nil-pointer dereference of
`mwait` that occurs if `retry` returns a nil error without any attempt
having succeeded. -/
inductive WaitOutcome where
  | crash
  | result (r : Except Nat Bool)

/-- Embeds `lotusWaitMessageResult` (src/lotus.go:346-364):
`retry`-wrapped `StateWaitMsg` (whose `n`-th outcome is
`stateWaitMsg n`), then `return mwait.Receipt.ExitCode == 0, nil`.
`none` is the fuel-exhaustion artifact of the model. -/
def lotusWaitMessageResult (deadline fuel : Nat)
    (stateWaitMsg : Nat → Except Nat MsgLookup) : Option WaitOutcome :=
  (retryGen deadline stateWaitMsg fuel 0 0 5000000000 none none).map
    fun out =>
      match out.1 with
      | some e => .result (.error e)
      | none =>
        match out.2.1 with
        | some mwait => .result (.ok (mwait.exitCode == 0))
        | none => .crash

instance {ε α : Type} [DecidableEq ε] [DecidableEq α] : DecidableEq (Except ε α) :=
  fun a b =>
    match a, b with
    | .ok x, .ok y =>
      if h : x = y then isTrue (by rw [h])
      else isFalse fun hc => h (by injection hc)
    | .error x, .error y =>
      if h : x = y then isTrue (by rw [h])
      else isFalse fun hc => h (by injection hc)
    | .ok _, .error _ => isFalse fun hc => Except.noConfusion hc
    | .error _, .ok _ => isFalse fun hc => Except.noConfusion hc

/-- Result of `lotusWaitMessageResult` as seen by the calling
goroutine's `ok, err :=` pair: `errored` is `err != nil`, `failed` is
`(false, nil)`, `succeeded` is `(true, nil)`. -/
inductive WaitKind where
  | errored
  | failed
  | succeeded
  deriving DecidableEq

/-- Oracle inputs of `serveVerifyAccount`: each field is the outcome of
the corresponding external call, in program order.  `lockRes = none`
means `lockUser` returned a nil error. -/
structure VerifyInput where
  body : Except Err Addr
  jwtUserID : Except Err String
  lockRes : Option Err
  fetchUser : Except Err User
  now : Int
  checkRemaining : Except Err Int
  submit : Except Err Cid
  wait : WaitKind
  nowAsync : Int
  deriving DecidableEq

/-- Observable effects of one `serveVerifyAccount` request, including
the detached goroutine run to completion: whether `lockUser` succeeded,
how many `unlockUser` calls were made in total (deferred handler +
goroutine), whether the message was submitted, and the record passed to
`saveUser` (`none` when no save happens). -/
structure VerifyTrace where
  lockAcquired : Bool
  unlockCount : Nat
  submitted : Bool
  saved : Option User
  deriving DecidableEq

/-- Embeds `serveVerifyAccount` (src/unnamed/part_001:136-243).  The
deferred function releases the lock iff `successfullySubmittedMessage`
is still false when the handler returns; after a successful submission
the spawned goroutine awaits the message and releases the lock in its
own deferred call.  On a nil `lotusWaitMessageResult` error the
goroutine writes `user.VerifiedFilecoinAddress` unconditionally and
updates `user.MostRecentAllocation` only when the message succeeded,
then saves. -/
def serveVerifyAccount (env : Env) (inp : VerifyInput) : VerifyTrace :=
  match inp.body with
  | .error _ => ⟨false, 0, false, none⟩
  | .ok targetAddr =>
  match inp.jwtUserID with
  | .error _ => ⟨false, 0, false, none⟩
  | .ok _userID =>
  match inp.lockRes with
  | some _ => ⟨false, 0, false, none⟩
  | none =>
  match inp.fetchUser with
  | .error _ => ⟨true, 1, false, none⟩
  | .ok user =>
  if !hasAccountOlderThan env inp.now user
      (env.verifierMinAccountAgeDays * 24 * nsPerHour) then
    ⟨true, 1, false, none⟩
  else if inp.now < user.mostRecentAllocation + 30 * nsPerDay then
    -- user.MostRecentAllocation.Add(30 * 24 * time.Hour).After(time.Now())
    ⟨true, 1, false, none⟩
  else
  match inp.checkRemaining with
  | .error _ => ⟨true, 1, false, none⟩
  | .ok remaining =>
  if env.maxAllowanceBytes - remaining ≤ 0 then
    ⟨true, 1, false, none⟩
  else
  match inp.submit with
  | .error _ => ⟨true, 1, false, none⟩
  | .ok _cid =>
  -- successfullySubmittedMessage = true; respond; then the goroutine:
  match inp.wait with
  | .errored => ⟨true, 1, true, none⟩
  | .failed =>
    ⟨true, 1, true, some { user with verifiedFilecoinAddress := targetAddr }⟩
  | .succeeded =>
    ⟨true, 1, true, some { user with verifiedFilecoinAddress := targetAddr,
                                     mostRecentAllocation := inp.nowAsync }⟩

/-- Error of `lotusGetMinerAddr` as classified by
`errors.Cause(err) != ErrNotMiner`. -/
inductive MinerErr where
  | notMiner
  | other (e : Err)
  deriving DecidableEq

/-- Oracle inputs of `serveFaucet`, in program order.  `minerAddr` is
the address returned by `lotusGetMinerAddr` (`""` — the empty address —
when the target is not a miner) and `minerErr` its error. -/
structure FaucetInput where
  targetAddr : Except Err Addr
  api : Option Err
  walletDefault : Except Err Addr
  jwtUserID : Except Err String
  lockRes : Option Err
  fetchUser : Except Err User
  now : Int
  minerAddr : Addr
  minerErr : Option MinerErr
  searchMsg : Except Err String
  prevPower : Except Err Int
  currentPower : Except Err Int
  send : Except Err Cid
  wait : WaitKind
  nowAsync : Int
  deriving DecidableEq

/-- Observable effects of one `serveFaucet` request; `sent` is the
`(toAddr, filAmount)` pair passed to `lotusSendFIL` when that call is
reached. -/
structure FaucetTrace where
  lockAcquired : Bool
  unlockCount : Nat
  submitted : Bool
  sent : Option (Addr × Int)
  saved : Option User
  deriving DecidableEq

/-- Tail of `serveFaucet` from the `lotusSendFIL` call on
(src/unnamed/part_001:444-491), shared by the three grant-size
branches.  `isMiner` is `!minerAddr.Empty()`.  The goroutine saves only
when the message succeeded: the miner fields when the target is a
miner, otherwise the one-time non-miner flag. -/
def faucetFinish (inp : FaucetInput) (user : User) (isMiner : Bool)
    (target : Addr) (owed : Int) : FaucetTrace :=
  match inp.send with
  | .error _ => ⟨true, 1, false, none, none⟩
  | .ok cid =>
  match inp.wait with
  | .errored => ⟨true, 1, true, some (target, owed), none⟩
  | .failed => ⟨true, 1, true, some (target, owed), none⟩
  | .succeeded =>
    if isMiner then
      ⟨true, 1, true, some (target, owed),
        some { user with mostRecentMinerFaucetGrant := inp.nowAsync,
                         mostRecentMinerFaucetGrantCid := cid }⟩
    else
      ⟨true, 1, true, some (target, owed),
        some { user with receivedNonMinerFaucetGrant := true }⟩

/-- Embeds `serveFaucet` (src/unnamed/part_001:311-491).  Before the
lock: address parse, node API dial, faucet-address resolution (wallet
default when `env.FaucetAddr` is the empty address), JWT.  After the
lock each failure path returns with the single deferred unlock.  In the
repeat-miner branch the local `targetAddr` is overwritten with the
resolved miner ID address before the payment is sent. -/
def serveFaucet (env : Env) (inp : FaucetInput) : FaucetTrace :=
  match inp.targetAddr with
  | .error _ => ⟨false, 0, false, none, none⟩
  | .ok targetAddr =>
  match inp.api with
  | some _ => ⟨false, 0, false, none, none⟩
  | none =>
  match (if env.faucetAddr == "" then inp.walletDefault else .ok env.faucetAddr :
      Except Err Addr) with
  | .error _ => ⟨false, 0, false, none, none⟩
  | .ok _faucetAddr =>
  match inp.jwtUserID with
  | .error _ => ⟨false, 0, false, none, none⟩
  | .ok _userID =>
  match inp.lockRes with
  | some _ => ⟨false, 0, false, none, none⟩
  | none =>
  match inp.fetchUser with
  | .error _ => ⟨true, 1, false, none, none⟩
  | .ok user =>
  if !hasAccountOlderThan env inp.now user env.faucetMinAccountAge then
    ⟨true, 1, false, none, none⟩
  else
  match inp.minerErr with
  | some (.other _) => ⟨true, 1, false, none, none⟩
  | _ =>
  let isMiner := inp.minerAddr != ""
  if !isMiner && user.receivedNonMinerFaucetGrant then
    ⟨true, 1, false, none, none⟩
  else
  if isMiner then
    if user.hasRequestedFromFaucetAsMiner then
      -- user.MostRecentMinerFaucetGrant.Add(env.FaucetRateLimit).After(time.Now())
      if inp.now < user.mostRecentMinerFaucetGrant + env.faucetRateLimit then
        ⟨true, 1, false, none, none⟩
      else
      -- targetAddr = minerAddr
      match inp.searchMsg with
      | .error _ => ⟨true, 1, false, none, none⟩
      | .ok _tipset =>
      match inp.prevPower with
      | .error _ => ⟨true, 1, false, none, none⟩
      | .ok prevPower =>
      match inp.currentPower with
      | .error _ => ⟨true, 1, false, none, none⟩
      | .ok currentPower =>
        faucetFinish inp user isMiner inp.minerAddr
          (minerOwed prevPower currentPower env.faucetMinGrant)
    else
      faucetFinish inp user isMiner targetAddr env.faucetBaseRate
  else
    faucetFinish inp user isMiner targetAddr env.faucetBaseRate

lemma elapsedAt_mono : Monotone elapsedAt :=
  monotone_nat_of_le_succ fun n =>
    show elapsedAt n ≤ elapsedAt n + waitSeq n from Nat.le_add_right _ _

/-- A `retry` run whose first success is attempt `N`, reached before the
deadline: starting from any reachable loop state at attempt `i ≤ N`,
the loop returns a nil error, captures the success value, and sleeps
`waitSeq i, …, waitSeq (N-1)`. -/
lemma retryGen_success {ε α : Type} (deadline N : Nat) (f : Nat → Except ε α) (a : α)
    (hN : ∀ k, k < N → ∀ b, f k ≠ Except.ok b)
    (ha : f N = Except.ok a) (hdl : elapsedAt N < deadline) :
    ∀ fuel i lastErr lastVal, i ≤ N → N - i < fuel →
      retryGen deadline f fuel i (elapsedAt i) (waitSeq i) lastErr lastVal
        = some (none, some a, (List.range' i (N - i)).map waitSeq) := by
  intro fuel
  induction fuel with
  | zero => intro i lastErr lastVal hi hf; omega
  | succ fuel ih =>
    intro i lastErr lastVal hi hf
    have hlt : elapsedAt i < deadline := lt_of_le_of_lt (elapsedAt_mono hi) hdl
    rw [retryGen, if_neg (by omega)]
    rcases Nat.eq_or_lt_of_le hi with rfl | hi2
    · rw [ha]
      simp [Nat.sub_self]
    · cases hfk : f i with
      | ok b => exact absurd hfk (hN i hi2 b)
      | error e =>
        have hrec := ih (i + 1) (some e) none (by omega) (by omega)
        show (retryGen deadline f fuel (i + 1) (elapsedAt (i + 1)) (waitSeq (i + 1))
            (some e) none).map (fun out => (out.1, out.2.1, waitSeq i :: out.2.2))
          = some (none, some a, (List.range' i (N - i)).map waitSeq)
        rw [hrec]
        simp only [Option.map_some']
        rw [show N - i = (N - (i + 1)) + 1 by omega, List.range'_succ, List.map_cons]

/-- A `retry` run in which attempts `0, …, N-1` all fail and the
deadline is reached at the top of iteration `N`: the loop returns the
error of attempt `N-1` (or the entering `lastErr`/`lastVal` when it
starts at `i = N`). -/
lemma retryGen_deadline {ε α : Type} (deadline N : Nat) (f : Nat → Except ε α)
    (e : Nat → ε)
    (hfail : ∀ k, k < N → f k = Except.error (e k))
    (hlt : ∀ k, k < N → elapsedAt k < deadline)
    (hge : deadline ≤ elapsedAt N) :
    ∀ fuel i lastErr lastVal, i ≤ N → N - i < fuel →
      retryGen deadline f fuel i (elapsedAt i) (waitSeq i) lastErr lastVal
        = some ((if i = N then lastErr else some (e (N - 1))),
                (if i = N then lastVal else none),
                (List.range' i (N - i)).map waitSeq) := by
  intro fuel
  induction fuel with
  | zero => intro i lastErr lastVal hi hf; omega
  | succ fuel ih =>
    intro i lastErr lastVal hi hf
    rcases Nat.eq_or_lt_of_le hi with rfl | hi2
    · rw [retryGen, if_pos hge]
      simp [Nat.sub_self]
    · rw [retryGen, if_neg (Nat.not_le.mpr (hlt i hi2)), hfail i hi2]
      have hrec := ih (i + 1) (some (e i)) none (by omega) (by omega)
      show (retryGen deadline f fuel (i + 1) (elapsedAt (i + 1)) (waitSeq (i + 1))
          (some (e i)) none).map (fun out => (out.1, out.2.1, waitSeq i :: out.2.2))
        = some ((if i = N then lastErr else some (e (N - 1))),
                (if i = N then lastVal else none),
                (List.range' i (N - i)).map waitSeq)
      rw [hrec]
      simp only [Option.map_some']
      have hfst : (if i + 1 = N then some (e i) else some (e (N - 1)))
          = some (e (N - 1)) := by
        by_cases hiN : i + 1 = N
        · rw [if_pos hiN, show i = N - 1 by omega]
        · rw [if_neg hiN]
      rw [hfst, ite_self, if_neg (show ¬ i = N by omega),
          if_neg (show ¬ i = N by omega),
          show N - i = (N - (i + 1)) + 1 by omega, List.range'_succ, List.map_cons]

/-- Whatever the attempt outcomes, the sleeps of any completed `retry`
run are an initial segment of the `waitSeq` schedule. -/
lemma retryGen_sleeps {ε α : Type} (deadline : Nat) (f : Nat → Except ε α) :
    ∀ fuel i lastErr lastVal r v s,
      retryGen deadline f fuel i (elapsedAt i) (waitSeq i) lastErr lastVal
        = some (r, v, s) →
      s = (List.range' i s.length).map waitSeq := by
  intro fuel
  induction fuel with
  | zero =>
    intro i lastErr lastVal r v s h
    rw [retryGen] at h
    exact Option.noConfusion h
  | succ fuel ih =>
    intro i lastErr lastVal r v s h
    rw [retryGen] at h
    by_cases hd : deadline ≤ elapsedAt i
    · rw [if_pos hd] at h
      obtain ⟨rfl, rfl, rfl⟩ : lastErr = r ∧ lastVal = v ∧ [] = s := by
        simpa using h
      rfl
    · rw [if_neg hd] at h
      cases hfk : f i with
      | ok a =>
        rw [hfk] at h
        obtain ⟨rfl, rfl, rfl⟩ : none = r ∧ some a = v ∧ [] = s := by
          simpa using h
        rfl
      | error e =>
        rw [hfk] at h
        change (retryGen deadline f fuel (i + 1) (elapsedAt (i + 1)) (waitSeq (i + 1))
            (some e) none).map (fun out => (out.1, out.2.1, waitSeq i :: out.2.2))
          = some (r, v, s) at h
        cases hrec : retryGen deadline f fuel (i + 1) (elapsedAt (i + 1))
            (waitSeq (i + 1)) (some e) none with
        | none => rw [hrec] at h; exact Option.noConfusion h
        | some out =>
          rw [hrec] at h
          simp only [Option.map_some'] at h
          obtain ⟨rfl, rfl, rfl⟩ :
              out.1 = r ∧ out.2.1 = v ∧ waitSeq i :: out.2.2 = s := by
            simpa using h
          have hout := ih (i + 1) (some e) none out.1 out.2.1 out.2.2 hrec
          rw [List.length_cons, List.range'_succ, List.map_cons, ← hout]

/-- `retryGen_success`, instantiated at the entry state of `retry`. -/
lemma retryGen_success_fromStart {ε α : Type} (deadline N fuel : Nat)
    (f : Nat → Except ε α) (a : α)
    (hN : ∀ k, k < N → ∀ b, f k ≠ Except.ok b)
    (ha : f N = Except.ok a) (hdl : elapsedAt N < deadline) (hfuel : N < fuel) :
    retryGen deadline f fuel 0 0 5000000000 none none
      = some (none, some a, (List.range N).map waitSeq) := by
  have h := retryGen_success deadline N f a hN ha hdl fuel 0 none none
    (Nat.zero_le N) (by omega)
  simpa [elapsedAt, waitSeq, ← List.range_eq_range'] using h

/-- `retryGen_deadline`, instantiated at the entry state of `retry`. -/
lemma retryGen_deadline_fromStart {ε α : Type} (deadline N fuel : Nat)
    (f : Nat → Except ε α) (e : Nat → ε)
    (hfail : ∀ k, k < N → f k = Except.error (e k))
    (hlt : ∀ k, k < N → elapsedAt k < deadline)
    (hge : deadline ≤ elapsedAt N) (h0 : 0 < N) (hfuel : N < fuel) :
    retryGen deadline f fuel 0 0 5000000000 none none
      = some (some (e (N - 1)), none, (List.range N).map waitSeq) := by
  have h := retryGen_deadline deadline N f e hfail hlt hge fuel 0 none none
    (Nat.zero_le N) (by omega)
  rw [if_neg (by omega), if_neg (by omega)] at h
  simpa [elapsedAt, waitSeq, ← List.range_eq_range'] using h

/-! Concrete fixtures used by counterexamples and witnesses. -/

def envT : Env :=
  { minAccountAgeDays := 30, verifierMinAccountAgeDays := 30,
    faucetMinAccountAge := 7 * nsPerDay, maxAllowanceBytes := 100,
    faucetRateLimit := 24 * nsPerHour, faucetBaseRate := 5,
    faucetMinGrant := 1, faucetAddr := "t3faucet" }

/-- An account linked 40 days before the reference instant `now = 0`. -/
def oldAccount : AccountData :=
  { uniqueID := "uid", name := "alice", createdAt := -(40 * nsPerDay) }

def userT : User :=
  { id := "u1", accounts := [oldAccount],
    mostRecentAllocation := -(60 * nsPerDay), mostRecentFaucetGrant := 0,
    verifiedFilecoinAddress := "", receivedNonMinerFaucetGrant := false,
    mostRecentMinerFaucetGrant := -(60 * nsPerDay),
    mostRecentMinerFaucetGrantCid := "cid0",
    hasRequestedFromFaucetAsMiner := true }

/-- A verify request that passes every check, submits, and whose
settlement poll reports `(false, nil)` — a failed transaction. -/
def vinFailed : VerifyInput :=
  { body := .ok "t3target", jwtUserID := .ok "u1", lockRes := none,
    fetchUser := .ok userT, now := 0, checkRemaining := .ok 0,
    submit := .ok "cidV", wait := .failed, nowAsync := 123 }

def vinErrored : VerifyInput := { vinFailed with wait := .errored }

/-- A faucet request by a repeat miner (prior power 100 GiB, current
power 80 GiB) whose settlement succeeds. -/
def finT : FaucetInput :=
  { targetAddr := .ok "t3client", api := none, walletDefault := .ok "t3wallet",
    jwtUserID := .ok "u1", lockRes := none, fetchUser := .ok userT, now := 0,
    minerAddr := "t0101", minerErr := none, searchMsg := .ok "tsk",
    prevPower := .ok (100 * 1073741824), currentPower := .ok (80 * 1073741824),
    send := .ok "cidF", wait := .succeeded, nowAsync := 123 }

def finFailed : FaucetInput := { finT with wait := .failed }

/-- Claim C1 (evaluation at the failing input): a conditional-write
state on which the claim fails.  Acquiring the `Verifier` lock on a
fresh record writes `Locked_Verifier = true` and nothing else — in
particular no attribute literally named `Locked` is ever created — and
a second acquire on the resulting record, whose lock flag is `true`,
still satisfies the condition `'Locked_Verifier' = false OR
attribute_not_exists(Locked)` and succeeds instead of returning
Conflict. -/
theorem lockUser_reacquire_succeeds :
    lockUser [] "Verifier" = some [("Locked_Verifier", true)]
    ∧ getAttr [("Locked_Verifier", true)] ("Locked_" ++ "Verifier") = some true
    ∧ (lockUser [("Locked_Verifier", true)] "Verifier").isSome = true := by
  refine ⟨?_, ?_, ?_⟩ <;> decide

/-- Claim C3 (evaluation at the failing input): `hasAccountOlderThan`
returns `true` for a user whose only account is 40 days old against a
60-day `threshold` argument — the claimed specification demands `false`
here, since 40 days is less than the threshold; the body compares
against `env.MinAccountAgeDays = 30` instead. -/
theorem hasAccountOlderThan_ignores_threshold :
    hasAccountOlderThan envT 0 userT (60 * nsPerDay) = true
    ∧ userT.accounts = [oldAccount]
    ∧ (0 : Int) - oldAccount.createdAt < 60 * nsPerDay := by
  refine ⟨?_, rfl, ?_⟩ <;> decide

lemma ite_min_eq_max (x m : Int) : (if x < m then m else x) = max x m := by
  rcases le_or_lt m x with h | h
  · rw [if_neg (not_lt.mpr h), max_eq_left h]
  · rw [if_pos h, max_eq_right h.le]

/-- Claim C5: the repeat-miner faucet grant is
`floor(floor(delta / 2^30) / 2)` of the positive power delta (zero for
a non-positive delta), clamped from below by the configured minimum
grant; and prior power 100 GiB with current power 80 GiB yields 10
before clamping. -/
theorem minerOwed_matches_spec :
    ∀ prevPower currentPower minGrant : Int,
      minerOwed prevPower currentPower minGrant
        = max (if 0 < prevPower - currentPower
               then ((prevPower - currentPower).fdiv (2 ^ 30)).fdiv 2
               else 0) minGrant
      ∧ minerOwed (100 * 2 ^ 30) (80 * 2 ^ 30) minGrant = max 10 minGrant := by
  intro prevPower currentPower minGrant
  constructor
  · simp only [minerOwed, show (2 ^ 30 : Int) = 1073741824 by norm_num]
    exact ite_min_eq_max _ minGrant
  · simp only [minerOwed]
    rw [show (if 0 < (100 * 2 ^ 30 - 80 * 2 ^ 30 : Int)
          then ((100 * 2 ^ 30 - 80 * 2 ^ 30 : Int).fdiv 1073741824).fdiv 2
          else 0) = 10 by decide]
    exact ite_min_eq_max 10 minGrant

/-- An estimation oracle that fails on the first attempt and would
succeed on any later one. -/
def estFlaky : Nat → Except Err Int
  | 0 => Except.error "rpc"
  | _ + 1 => Except.ok 42

/-- Claim C6 counterexample: with an estimator that fails once and then
succeeds, and a 10-minute deadline nowhere near exhausted, both
embedded estimators return the error after exactly one call, whereas
the retry loop the claim describes (the one the code really applies to
the API dial and the settlement wait) reaches the second attempt after
a single 5 s sleep and succeeds. -/
theorem estimators_not_retried :
    lotusEstimateGasLimit estFlaky = (Except.error "rpc", 1)
    ∧ lotusEstimateGasPrice estFlaky = (Except.error "rpc", 1)
    ∧ retryGen 600000000000 estFlaky 13 0 0 5000000000 none none
        = some (none, some 42, [5000000000]) := by
  refine ⟨rfl, rfl, ?_⟩
  rfl

/-- Claim C6 (amended): `lotusEstimateGasLimit` and
`lotusEstimateGasPrice` each issue their external estimation call
exactly once and propagate its outcome directly; a failure is returned
immediately, with no retry. -/
theorem estimators_single_call (gl gp : Nat → Except Err Int) :
    lotusEstimateGasLimit gl = (gl 0, 1)
    ∧ lotusEstimateGasPrice gp = (gp 0, 1) := by
  constructor
  · unfold lotusEstimateGasLimit
    cases gl 0 <;> rfl
  · unfold lotusEstimateGasPrice
    cases gp 0 <;> rfl

/-- Claim C7 counterexample: run against the 10-minute deadline the
callers use, with every attempt failing, `retry` performs eleven
sleeps, and the eleventh is 288325195312 ns — `wait += wait / 2` in
integer nanoseconds — whereas the claim's formula `5 s × 1.5^(n-1)`
demands 5000000000 × (3/2)^10 = 288325195312.5 ns. -/
theorem retry_eleventh_wait_truncated :
    retry 600000000000 13 (fun _ => some 1)
      = some (some 1,
          [5000000000, 7500000000, 11250000000, 16875000000, 25312500000,
           37968750000, 56953125000, 85429687500, 128144531250, 192216796875,
           288325195312])
    ∧ (288325195312 : ℚ) ≠ 5000000000 * (3 / 2) ^ 10 := by
  constructor
  · rfl
  · norm_num

/-- Claim C7 (amended): the wrapped function's failures are retried on
the schedule `waitSeq` — 5 s after the first failure, then each wait
increased by half of itself in integer nanoseconds, which equals
5 s × 1.5ⁿ exactly for the first ten waits and is truncated toward zero
by fractions of a nanosecond thereafter; the sleeps of any completed
run follow that schedule; `retry` returns nil as soon as an attempt
succeeds before the deadline; and when the deadline arrives after `N ≥ 1`
failed attempts it returns the error of the most recent one. -/
theorem retry_backoff_behavior (deadline fuel : Nat) (fn : Nat → Option Nat) :
    (∀ r s, retry deadline fuel fn = some (r, s) →
        s = (List.range s.length).map waitSeq)
    ∧ (∀ n, n ≤ 9 → 2 ^ n * waitSeq n = 3 ^ n * 5000000000)
    ∧ (∀ N, (∀ k, k < N → fn k ≠ none) → fn N = none →
        elapsedAt N < deadline → N < fuel →
        retry deadline fuel fn = some (none, (List.range N).map waitSeq))
    ∧ (∀ (N : Nat) (e : Nat → Nat), (∀ k, k < N → fn k = some (e k)) → 0 < N →
        elapsedAt (N - 1) < deadline → deadline ≤ elapsedAt N → N < fuel →
        retry deadline fuel fn
          = some (some (e (N - 1)), (List.range N).map waitSeq)) := by
  refine ⟨?_, by decide, ?_, ?_⟩
  · intro r s h
    unfold retry at h
    cases hrec : retryGen deadline
        (fun n => match fn n with
          | none => Except.ok ()
          | some e => Except.error e)
        fuel 0 0 5000000000 none none with
    | none => rw [hrec] at h; exact Option.noConfusion h
    | some out =>
      rw [hrec, Option.map_some'] at h
      obtain ⟨rfl, rfl⟩ : out.1 = r ∧ out.2.2 = s := by simpa using h
      have hsl := retryGen_sleeps deadline
        (fun n => match fn n with
          | none => Except.ok ()
          | some e => Except.error e)
        fuel 0 none none out.1 out.2.1 out.2.2 hrec
      rw [← List.range_eq_range'] at hsl
      exact hsl
  · intro N hfails hsucc hdl hfuel
    have hN : ∀ k, k < N → ∀ b : Unit,
        (fun n => match fn n with
          | none => Except.ok ()
          | some e => Except.error e) k ≠ Except.ok b := by
      intro k hk b hc
      cases hfn : fn k with
      | none => exact hfails k hk hfn
      | some e =>
        simp only [hfn] at hc
        exact Except.noConfusion hc
    have ha : (fun n => match fn n with
        | none => Except.ok ()
        | some e => Except.error e) N = Except.ok () := by
      simp only [hsucc]
    unfold retry
    rw [retryGen_success_fromStart deadline N fuel _ () hN ha hdl hfuel]
    rfl
  · intro N e hfail hpos hdl hge hfuel
    have hfail2 : ∀ k, k < N →
        (fun n => match fn n with
          | none => Except.ok ()
          | some e => Except.error e) k = Except.error (e k) := by
      intro k hk
      simp only [hfail k hk]
    have hlt : ∀ k, k < N → elapsedAt k < deadline := fun k hk =>
      lt_of_le_of_lt (elapsedAt_mono (by omega : k ≤ N - 1)) hdl
    unfold retry
    rw [retryGen_deadline_fromStart deadline N fuel _ e hfail2 hlt hge hpos hfuel]
    rfl

/-- Claim C7 witness: the theorem applied to a function succeeding on
the second attempt under a 10 s deadline, and to an always-failing
function under a 1 ns deadline. -/
theorem retry_backoff_behavior_witness :
    retry 10000000000 3 (fun n => if n = 0 then some 7 else none)
      = some (none, [5000000000])
    ∧ retry 1 2 (fun _ => some 3) = some (some 3, [5000000000]) := by
  constructor
  · exact (retry_backoff_behavior 10000000000 3
        (fun n => if n = 0 then some 7 else none)).2.2.1 1
      (by intro k hk; interval_cases k; simp) (by simp)
      (by decide) (by decide)
  · exact (retry_backoff_behavior 1 2 (fun _ => some 3)).2.2.2 1 (fun _ => 3)
      (by intro k hk; rfl) (by decide) (by decide) (by decide) (by decide)

/-- Claim C8: a context that is already done before the first attempt
makes `retry` return its named error value — still nil — without
invoking the wrapped function at all (the result does not depend on
`f`), indistinguishable from a run whose first attempt genuinely
succeeded. -/
theorem retry_preExpired_returns_nil (fuel : Nat) (f g : Nat → Option Nat)
    (hfuel : 0 < fuel) :
    retry 0 fuel f = some (none, [])
    ∧ retry 0 fuel f = retry 0 fuel g
    ∧ retry 10 fuel (fun _ => none) = some (none, []) := by
  obtain ⟨fuel, rfl⟩ : ∃ m, fuel = m + 1 := ⟨fuel - 1, by omega⟩
  refine ⟨?_, ?_, ?_⟩ <;> simp [retry, retryGen]

/-- Claim C8 witness. -/
theorem retry_preExpired_returns_nil_witness :
    retry 0 1 (fun _ => none) = some (none, [])
    ∧ retry 0 1 (fun _ => none) = retry 0 1 (fun _ => some 5) :=
  ⟨(retry_preExpired_returns_nil 1 (fun _ => none) (fun _ => some 5)
      (by decide)).1,
   (retry_preExpired_returns_nil 1 (fun _ => none) (fun _ => some 5)
      (by decide)).2.1⟩

/-- Claim C9: when the settlement poll obtains a receipt — its first
successful `StateWaitMsg` attempt, made before the deadline, returns
`mwait` — `lotusWaitMessageResult` returns `(mwait.Receipt.ExitCode == 0,
nil)`: the outcome is Succeeded exactly when the exit code is zero, and
a nonzero exit code yields `(false, nil)`, a failed outcome rather than
an error. -/
theorem waitMessageResult_exitCode (deadline fuel N : Nat)
    (stateWaitMsg : Nat → Except Nat MsgLookup) (mwait : MsgLookup)
    (hfail : ∀ k, k < N → ∀ b, stateWaitMsg k ≠ Except.ok b)
    (hok : stateWaitMsg N = Except.ok mwait)
    (hdl : elapsedAt N < deadline) (hfuel : N < fuel) :
    lotusWaitMessageResult deadline fuel stateWaitMsg
        = some (.result (.ok (mwait.exitCode == 0)))
    ∧ (mwait.exitCode ≠ 0 →
        lotusWaitMessageResult deadline fuel stateWaitMsg
          = some (.result (.ok false))) := by
  have h := retryGen_success_fromStart deadline N fuel stateWaitMsg mwait
    hfail hok hdl hfuel
  constructor
  · unfold lotusWaitMessageResult
    rw [h]
    rfl
  · intro hne
    unfold lotusWaitMessageResult
    rw [h]
    show some (WaitOutcome.result (Except.ok (mwait.exitCode == 0)))
      = some (WaitOutcome.result (Except.ok false))
    rw [beq_eq_false_iff_ne.mpr hne]

/-- Claim C9 witness: a first-attempt receipt with exit code 7 is
classified as a failed outcome `(false, nil)`. -/
theorem waitMessageResult_exitCode_witness :
    lotusWaitMessageResult 1 1 (fun _ => Except.ok ⟨7⟩)
      = some (.result (.ok false)) :=
  (waitMessageResult_exitCode 1 1 0 (fun _ => Except.ok ⟨7⟩) ⟨7⟩
      (fun k hk => absurd hk (Nat.not_lt_zero k)) rfl (by decide)
      (by decide)).2 (by decide)

/-- Claim C2: in both handlers, whatever the outcomes of the external
calls, a request that acquires the per-(subject, resource-kind) lock
performs exactly one `unlockUser` call across all terminal paths —
including the two settled only by the detached goroutine — and a
request that never acquires it performs none. -/
theorem lock_released_exactly_once (env : Env) (vi : VerifyInput)
    (fi : FaucetInput) :
    (serveVerifyAccount env vi).unlockCount
        = (if (serveVerifyAccount env vi).lockAcquired then 1 else 0)
    ∧ (serveFaucet env fi).unlockCount
        = (if (serveFaucet env fi).lockAcquired then 1 else 0) := by
  constructor
  · unfold serveVerifyAccount
    repeat' split
    all_goals simp_all
  · simp only [serveFaucet, faucetFinish]
    repeat' split
    all_goals simp_all

/-- Claim C4 counterexample: a verify request whose settlement poll
reports a *failed* transaction (`(false, nil)`) still writes the
verified-address field of the fetched record and saves it — the
persisted record is not left unchanged. -/
theorem verify_failed_settlement_still_saves :
    (serveVerifyAccount envT vinFailed).saved
        = some { userT with verifiedFilecoinAddress := "t3target" }
    ∧ some { userT with verifiedFilecoinAddress := "t3target" }
        ≠ some userT := by
  constructor
  · rfl
  · decide

/-- Claim C4 (amended): when the settlement poll errors or times out,
neither reconciler saves; when it reports a failed transaction the
faucet reconciler leaves the record unchanged, but the verify
reconciler still writes the verified-address field and saves — only the
last-allocation timestamp update is conditional on success. -/
theorem settlement_nonsuccess_persistence (env : Env) (vi : VerifyInput)
    (fi : FaucetInput) :
    (vi.wait = .errored → (serveVerifyAccount env vi).saved = none)
    ∧ (∀ user target, vi.wait = .failed → vi.fetchUser = .ok user →
        vi.body = .ok target →
        (serveVerifyAccount env vi).saved = none
        ∨ (serveVerifyAccount env vi).saved
            = some { user with verifiedFilecoinAddress := target })
    ∧ ((fi.wait = .errored ∨ fi.wait = .failed) →
        (serveFaucet env fi).saved = none) := by
  refine ⟨?_, ?_, ?_⟩
  · intro hw
    unfold serveVerifyAccount
    repeat' split
    all_goals simp_all
  · intro user target hw hu hb
    unfold serveVerifyAccount
    repeat' split
    all_goals simp_all
  · intro hw
    simp only [serveFaucet, faucetFinish]
    repeat' split
    all_goals rcases hw with hw | hw <;> simp_all

/-- Claim C4 witness: an errored verify settlement and a failed faucet
settlement both leave the record unsaved. -/
theorem settlement_nonsuccess_persistence_witness :
    (serveVerifyAccount envT vinErrored).saved = none
    ∧ (serveFaucet envT finFailed).saved = none :=
  ⟨(settlement_nonsuccess_persistence envT vinErrored finFailed).1 rfl,
   (settlement_nonsuccess_persistence envT vinErrored finFailed).2.2
     (Or.inr rfl)⟩

/-- Claim C10: whenever `serveFaucet` reaches the payment, the
destination is the resolved miner ID address exactly when the target is
a miner that has previously received a miner grant; otherwise it is the
address supplied in the request path, unchanged. -/
theorem faucet_payment_target (env : Env) (inp : FaucetInput) (user : User)
    (target : Addr) (hu : inp.fetchUser = .ok user)
    (ht : inp.targetAddr = .ok target) :
    ∀ p, (serveFaucet env inp).sent = some p →
      p.1 = if inp.minerAddr != "" && user.hasRequestedFromFaucetAsMiner
            then inp.minerAddr else target := by
  intro p hp
  simp only [serveFaucet, faucetFinish] at hp
  repeat' split at hp
  all_goals try simp_all
  all_goals (subst hp; simp)

/-- Claim C10 witness: the repeat-miner fixture pays the resolved miner
ID address `"t0101"`, not the supplied `"t3client"`. -/
theorem faucet_payment_target_witness :
    (("t0101" : Addr), (10 : Int)).1
      = if finT.minerAddr != "" && userT.hasRequestedFromFaucetAsMiner
        then finT.minerAddr else "t3client" :=
  faucet_payment_target envT finT userT "t3client" rfl rfl ("t0101", 10)
    (by decide)

end FilecoinVerifier
